import Mathlib

/-!
Shallow embedding of the jira-diff-validator repository.

JavaScript strings manipulated character-wise by the git adapter are
modelled as `List Char` (abbreviated `JSStr`); external effects
(`execSync`, `fetch`, `existsSync`, `process.env`) are modelled as
explicit oracles passed in, and every adapter returns, next to its
result, the list of external commands (resp. requested URLs) it ran,
so that "no external command is executed" is a provable statement.
Thrown JavaScript exceptions are modelled with `Except String`.
-/

/-- JavaScript string, viewed as its list of characters. -/
abbrev JSStr := List Char

/-- Whitespace predicate backing `String.prototype.trim`. -/
def isWs (c : Char) : Bool := c.isWhitespace

/-- `s.trim()`: drop whitespace from both ends (leading side first,
then trailing side via reverse). -/
def jsTrim (l : JSStr) : JSStr :=
  ((l.dropWhile isWs).reverse.dropWhile isWs).reverse

/-- `s.split('\n')` of JavaScript: splitting the empty string yields
one empty field, and separators at the ends yield empty fields. -/
def splitLines : JSStr → List JSStr
  | [] => [[]]
  | c :: rest =>
    let r := splitLines rest
    if c = '\n' then [] :: r
    else
      match r with
      | h :: t => (c :: h) :: t
      | [] => [[c]]

/-- Whether a string begins with the current-branch marker `"* "`,
i.e. `branch.startsWith('* ')`. -/
def startsStar : JSStr → Bool
  | a :: b :: _ => a = '*' && b = ' '
  | _ => false

/-- `branch.startsWith('* ') ? branch.substring(2) : branch` from
`getBranches` (src/app/api/git/route.ts line 56). -/
def stripStarMarker (b : JSStr) : JSStr :=
  if startsStar b then b.drop 2 else b

/-- Guard on a trimmed line of branch-listing output: after a leading
marker `"* "`, the remainder must neither start with whitespace nor
with another marker.  Real branch-listing output (a marker, one space,
then a branch name, which can contain neither whitespace nor an
embedded `"* "`) always satisfies this. -/
def afterStarOk (t : JSStr) : Bool :=
  if startsStar t then
    !startsStar (t.drop 2)
      && (match t.drop 2 with
          | c :: _ => !isWs c
          | [] => true)
  else true

namespace GitRoute

/-- The external world seen by src/app/api/git/route.ts: `existsSync`
and `execSync` (per working directory and command; a thrown error is
`Except.error`). -/
structure GitEnv where
  pathExists : JSStr → Bool
  exec : JSStr → JSStr → Except String JSStr

/-- The literal command `'git branch'`. -/
def gitBranchCmd : JSStr := "git branch".toList

/-- The literal command `'git branch --show-current'`. -/
def gitShowCurrentCmd : JSStr := "git branch --show-current".toList

/-- The literal command `'git remote show origin'`. -/
def gitRemoteShowCmd : JSStr := "git remote show origin".toList

/-- `getBranches` (src/app/api/git/route.ts lines 44-61): missing path
gives `[]` with no command run; a throwing command is caught and gives
`[]`; otherwise split on newlines, trim, drop empties, strip the
`"* "` marker.  Second component: the external commands executed. -/
def getBranches (env : GitEnv) (projectPath : JSStr) :
    List JSStr × List JSStr :=
  if !env.pathExists projectPath then ([], [])
  else
    match env.exec projectPath gitBranchCmd with
    | Except.error _ => ([], [gitBranchCmd])
    | Except.ok output =>
      ((((splitLines output).map jsTrim).filter
          (fun branch => !branch.isEmpty)).map stripStarMarker,
        [gitBranchCmd])

/-- `getCurrentBranch` (src/app/api/git/route.ts lines 68-81). -/
def getCurrentBranch (env : GitEnv) (projectPath : JSStr) :
    Option JSStr × List JSStr :=
  if !env.pathExists projectPath then (none, [])
  else
    match env.exec projectPath gitShowCurrentCmd with
    | Except.error _ => (none, [gitShowCurrentCmd])
    | Except.ok output => (some (jsTrim output), [gitShowCurrentCmd])

/-- `['develop', 'main', 'master']`. -/
def commonDefaultBranches : List JSStr :=
  ["develop".toList, "main".toList, "master".toList]

/-- The match `remoteOutput.match(/HEAD branch: (.+)/)` capture group:
scan left to right for the literal `"HEAD branch: "` followed by at
least one non-newline character; the capture is the maximal run of
non-newline characters after the literal. -/
def findHeadBranch : JSStr → Option JSStr
  | [] => none
  | c :: rest =>
    let lit : JSStr := "HEAD branch: ".toList
    if lit.isPrefixOf (c :: rest) then
      let after := (c :: rest).drop lit.length
      let capture := after.takeWhile (fun x => x ≠ '\n')
      if capture.isEmpty then findHeadBranch rest else some capture
    else findHeadBranch rest

/-- `getDefaultBranch` (src/app/api/git/route.ts lines 88-123): try the
priority list against `getBranches`; otherwise ask
`git remote show origin` for its `HEAD branch:` line (inner try/catch);
otherwise the first branch, or null. -/
def getDefaultBranch (env : GitEnv) (projectPath : JSStr) :
    Option JSStr × List JSStr :=
  if !env.pathExists projectPath then (none, [])
  else
    let b := getBranches env projectPath
    let branches := b.1
    match commonDefaultBranches.find? (fun x => branches.contains x) with
    | some branch => (some branch, b.2)
    | none =>
      match env.exec projectPath gitRemoteShowCmd with
      | Except.ok remoteOutput =>
        match findHeadBranch remoteOutput with
        | some capture => (some (jsTrim capture), b.2 ++ [gitRemoteShowCmd])
        | none => (branches.head?, b.2 ++ [gitRemoteShowCmd])
      | Except.error _ => (branches.head?, b.2 ++ [gitRemoteShowCmd])

/-- The single-quote character wrapping each exclude pattern. -/
def singleQuote : Char := Char.ofNat 39

/-- The command string `` `git diff ${fromBranch}...${toBranch} -- ${excludeArgs}` ``
with `excludeArgs` the space-joined quoted exclude patterns. -/
def gitDiffCmd (fromBranch toBranch : JSStr) (excludePatterns : List JSStr) :
    JSStr :=
  let excludeArgs :=
    List.intercalate [' ']
      (excludePatterns.map
        (fun pattern =>
          singleQuote :: ":(exclude)".toList ++ pattern ++ [singleQuote]))
  "git diff ".toList ++ fromBranch ++ "...".toList ++ toBranch
    ++ " -- ".toList ++ excludeArgs

/-- `getDiff` (src/app/api/git/route.ts lines 133-158). -/
def getDiff (env : GitEnv) (projectPath fromBranch toBranch : JSStr)
    (excludePatterns : List JSStr) : Option JSStr × List JSStr :=
  if !env.pathExists projectPath then (none, [])
  else
    let cmd := gitDiffCmd fromBranch toBranch excludePatterns
    match env.exec projectPath cmd with
    | Except.error _ => (none, [cmd])
    | Except.ok output => (some output, [cmd])

/-- POSIX `basename`: last path segment, ignoring trailing slashes
(the root-path edge case is never exercised by the claims). -/
def pathBasename (p : JSStr) : JSStr :=
  let q := (p.reverse.dropWhile (fun c => c = '/')).reverse
  (q.reverse.takeWhile (fun c => c ≠ '/')).reverse

/-- `getProjectName` (src/app/api/git/route.ts lines 165-168): null for
a missing path, otherwise `basename(projectPath)`; runs no command. -/
def getProjectName (env : GitEnv) (projectPath : JSStr) :
    Option JSStr × List JSStr :=
  if !env.pathExists projectPath then (none, [])
  else (some (pathBasename projectPath), [])

end GitRoute

namespace Jira

/-- A node of the tracker's rich-text (ADF) document tree as consumed
by `extractTextFromADF`: a `type` tag, an optional `text` field, and an
optional `content` array of child nodes. -/
inductive ADFNode where
  | mk (ty : String) (text : Option String) (content : Option (List ADFNode))

/-- JavaScript truthiness of an optional string: present and
non-empty. -/
def jsTruthy : Option String → Bool
  | some s => !(s = "")
  | none => false

mutual

/-- `extractTextFromADF` (src/lib/jira-ticket-retrieval.ts lines 61-91):
append the text run when `type === 'text' && node.text`; a newline for
`paragraph` and for `bulletList` (before the children); the glyph
sequence for `listItem` (before the children); recurse into
`node.content` when present; then a trailing newline for `paragraph`
and `listItem`. -/
def extractTextFromADF : ADFNode → String
  | ADFNode.mk ty tx content =>
    (if ty = "text" && jsTruthy tx then tx.getD "" else "")
      ++ (if ty = "paragraph" then "\n" else "")
      ++ (if ty = "bulletList" then "\n" else "")
      ++ (if ty = "listItem" then "â€¢ " else "")
      ++ (match content with
          | some children => extractADFChildren children
          | none => "")
      ++ (if ty = "paragraph" || ty = "listItem" then "\n" else "")

/-- The `for (const child of node.content)` loop body of
`extractTextFromADF`. -/
def extractADFChildren : List ADFNode → String
  | [] => ""
  | child :: rest => extractTextFromADF child ++ extractADFChildren rest

end

end Jira

namespace Jira

/-- A JavaScript value in the `description` position of the tracker
response (`description: unknown` in `JiraApiResponse`): `null`,
`undefined`, a string, or an ADF object tree. -/
inductive JSValue where
  | jsNull
  | jsUndefined
  | str (s : String)
  | node (n : ADFNode)

/-- `typeof v === 'object'`: true for `null` and for objects. -/
def typeofIsObject : JSValue → Bool
  | JSValue.jsNull => true
  | JSValue.node _ => true
  | _ => false

/-- `String(v || '')` for the non-object values reaching the fallback
branch of the description formatting. -/
def jsStringOrEmpty : JSValue → String
  | JSValue.str s => s
  | _ => ""

/-- Lines 130-134 of src/lib/jira-ticket-retrieval.ts:
`typeof description === 'object' ? extractTextFromADF(description)
: String(description || '')`.  Passing `null` to the walker throws
(`node.type` reads a property of `null`), modelled as `Except.error`. -/
def formatDescription : JSValue → Except String String
  | JSValue.node n => Except.ok (extractTextFromADF n)
  | JSValue.jsNull =>
    Except.error "TypeError: Cannot read properties of null"
  | v => Except.ok (jsStringOrEmpty v)

/-- The `JiraTicket` interface: identifier, title, flattened
description twice, and an optional recursive parent list. -/
inductive JiraTicket where
  | mk (ticketId markdownDescription description title : String)
      (parents : Option (List JiraTicket))

/-- A tracker HTTP response paired with its parsed JSON body fields
(`summary`, `description`, `parent.key`). -/
structure FetchResponse where
  ok : Bool
  statusText : String
  summary : String
  description : JSValue
  parent : Option String

/-- The Jira client configuration (domain, email, API token). -/
structure JiraConfig where
  domain : String
  email : String
  apiToken : String

/-- The request URL of `JiraClient.getTicket`: base URL
`https://${domain}/rest/api/3` plus `/issue/${id}?${queryParams}`,
where `URLSearchParams` percent-encodes the comma-joined field list. -/
def issueUrl (cfg : JiraConfig) (ticketIdentifier : String) : String :=
  "https://" ++ cfg.domain ++ "/rest/api/3" ++ "/issue/" ++ ticketIdentifier
    ++ "?" ++ "fields=summary%2Cdescription%2Cparent"

/-- `JiraClient.getTicket` (src/lib/jira-ticket-retrieval.ts lines
105-161): one fetch of the issue URL; a network throw, a non-ok
response, or a throwing description walk are all caught and give
`null`; otherwise the ticket is built, with a single empty-placeholder
parent entry when the response carries a parent link.  Second
component: the URLs requested. -/
def clientGetTicket (cfg : JiraConfig)
    (fetchOracle : String → Except String FetchResponse)
    (ticketIdentifier : String) : Option JiraTicket × List String :=
  let url := issueUrl cfg ticketIdentifier
  (match fetchOracle url with
    | Except.error _ => none
    | Except.ok response =>
      if !response.ok then none
      else
        match formatDescription response.description with
        | Except.error _ => none
        | Except.ok formattedDesc =>
          some (JiraTicket.mk ticketIdentifier formattedDesc formattedDesc
            response.summary
            (match response.parent with
              | some key =>
                some [JiraTicket.mk key "" "" "" none]
              | none => none)),
    [url])

/-- `jiraClientFrom` (src/lib/jira-ticket-retrieval.ts lines 164-181):
read the three environment variables; if any is falsy (unset or the
empty string) return `null`, else build the client configuration. -/
def jiraClientFrom (env : String → Option String) : Option JiraConfig :=
  if !jsTruthy (env "JIRA_DOMAIN") || !jsTruthy (env "JIRA_EMAIL")
      || !jsTruthy (env "JIRA_API_TOKEN") then none
  else
    some (JiraConfig.mk ((env "JIRA_DOMAIN").getD "")
      ((env "JIRA_EMAIL").getD "") ((env "JIRA_API_TOKEN").getD ""))

/-- The configuration refusal message of the jira route. -/
def jiraConfigErrorMsg : String :=
  "Missing Jira configuration. Please check your environment variables."

/-- `getTicket` of src/app/api/jira/route.ts (lines 26-39): when
`jiraClientFrom` yields `null`, throw the configuration error (and
rethrow it past the catch) before any network request; otherwise
delegate to the client.  Second component: the URLs requested. -/
def routeGetTicket (env : String → Option String)
    (fetchOracle : String → Except String FetchResponse)
    (ticketId : String) : Except String (Option JiraTicket) × List String :=
  match jiraClientFrom env with
  | none => (Except.error jiraConfigErrorMsg, [])
  | some cfg =>
    let r := clientGetTicket cfg fetchOracle ticketId
    (Except.ok r.1, r.2)

end Jira

namespace Llm

/-- The apostrophe character occurring in the system instruction. -/
def apostrophe : String := String.singleton (Char.ofNat 39)

/-- The `systemPrompt` template literal of
src/app/api/llm/route.ts (lines 33-38), byte for byte. -/
def systemPrompt : String :=
  "\n      You are supposed to validate and verify whether the provided git differences conform to the provided Jira ticket description.\n      Do not send summaries back, only provide feedback on the diff whether there are any changes required.\n      If no changes are required, just say that.\n      Only note the AC points and whether they are conformed, by prefixed with checkboxes and the reasoning why it does or doesn"
    ++ apostrophe ++ "t conform.\n    "

/-- The `userPrompt` template literal of src/app/api/llm/route.ts
(lines 40-52), with the two interpolation holes as arguments. -/
def userPrompt (ticketDescription gitDiff : String) : String :=
  "\n      I have a Jira ticket below. Could you tell me whether the implementation conforms to the description, and if not, what needs to be changed?\n\n      The ticket:\n      ```plaintext\n      "
    ++ ticketDescription
    ++ "\n      ```\n\n      The git diff:\n      ```plaintext\n      "
    ++ gitDiff
    ++ "\n      ```\n    "

/-- Text standing before the first interpolation hole of `userPrompt`;
it ends by opening the first fenced plaintext block. -/
def userPromptHead : String :=
  "\n      I have a Jira ticket below. Could you tell me whether the implementation conforms to the description, and if not, what needs to be changed?\n\n      The ticket:\n      ```plaintext\n      "

/-- Text standing between the two interpolation holes of `userPrompt`;
it closes the first fenced block and opens the second. -/
def userPromptBetween : String :=
  "\n      ```\n\n      The git diff:\n      ```plaintext\n      "

/-- Text standing after the second interpolation hole of `userPrompt`;
it closes the second fenced block. -/
def userPromptTail : String :=
  "\n      ```\n    "

/-- `validateDiffAgainstTicket` (src/app/api/llm/route.ts lines
28-69): the model call is an oracle from the system and user messages
to either a text completion or a thrown error; a throw is caught and
rendered as an `Error validating diff: `-prefixed string. -/
def validateDiffAgainstTicket
    (generate : String → String → Except String String)
    (ticketDescription gitDiff : String) : String :=
  match generate systemPrompt (userPrompt ticketDescription gitDiff) with
  | Except.ok text => text
  | Except.error e => "Error validating diff: " ++ e

end Llm

namespace PageTsx

/-- JavaScript `\w`: ASCII letters, digits, underscore. -/
def isWordChar (c : Char) : Bool := c.isAlphanum || c = '_'

/-- The `([^-]+)-(\d+)` tail of the inference pattern, applied at a
fixed position: the first group takes the maximal non-hyphen run
(forced, since a hyphen must follow), then a hyphen, then the maximal
digit run, which must be non-empty. -/
def matchKeyNum (cs : JSStr) : Option (JSStr × JSStr) :=
  let g1 := cs.takeWhile (fun c => c ≠ '-')
  if g1.isEmpty then none
  else
    match cs.drop g1.length with
    | '-' :: r2 =>
      let g2 := r2.takeWhile Char.isDigit
      if g2.isEmpty then none else some (g1, g2)
    | _ => none

/-- Fueled matcher for the anchored pattern `(?:\w+\/)*([^-]+)-(\d+)`:
the prefix group greedily consumes one word-run-plus-slash segment
(each forced to end exactly at a slash) and recurses past it; when the
recursion fails it backtracks to matching the tail here.  Any fuel of
at least the input length is exact, since each segment consumes at
least two characters (and an empty input has no segment). -/
def execTicketRegexAux : Nat → JSStr → Option (JSStr × JSStr)
  | 0, cs => matchKeyNum cs
  | Nat.succ fuel, cs =>
    if (cs.takeWhile isWordChar).isEmpty then matchKeyNum cs
    else
      match cs.drop (cs.takeWhile isWordChar).length with
      | '/' :: rest =>
        match execTicketRegexAux fuel rest with
        | some r => some r
        | none => matchKeyNum cs
      | _ => matchKeyNum cs

/-- `/^(?:\w+\/)*([^-]+)-(\d+)/.exec(branch)` capture groups
(src/app/page.tsx lines 110-117 and 208-210). -/
def execTicketRegex (cs : JSStr) : Option (JSStr × JSStr) :=
  execTicketRegexAux cs.length cs

/-- The ticket-ID inference: when the pattern matches (so the match
array has length 3 > 2), join the two captured groups with a hyphen;
otherwise no identifier. -/
def inferTicketId (branch : JSStr) : Option JSStr :=
  match execTicketRegex branch with
  | some (g1, g2) => some (g1 ++ '-' :: g2)
  | none => none

end PageTsx

namespace Jira

/-- The rich-text tree of the spec's example: a document holding a
paragraph with text run `Done`, then a bullet list with two list items
holding text runs `A` and `B`. -/
def exampleDoc : ADFNode :=
  ADFNode.mk "doc" none (some
    [ ADFNode.mk "paragraph" none
        (some [ADFNode.mk "text" (some "Done") none]),
      ADFNode.mk "bulletList" none (some
        [ ADFNode.mk "listItem" none
            (some [ADFNode.mk "text" (some "A") none]),
          ADFNode.mk "listItem" none
            (some [ADFNode.mk "text" (some "B") none]) ]) ])

end Jira

/-- C1: refuted as stated.  On the spec's example tree the flattening
does not produce `"Done\n"` followed by `"\n• A\n• B\n"`: the walker
also emits a line break before each paragraph's content, and the
item marker it prepends is the three-character sequence `â€¢ `
found in the source, not the single bullet glyph. -/
theorem claim_C1_counterexample :
    Jira.extractTextFromADF Jira.exampleDoc ≠ "Done\n" ++ "\n• A\n• B\n" := by
  decide

/-- C1 (amended): flattening appends each non-empty text run's text
verbatim; it inserts a line break both before and after each
paragraph's content, a line break before a bullet list's items, and a
line break after each list item; each list item is prefixed with the
marker sequence `â€¢ `; children are flattened depth-first in order.
On the example tree this produces exactly `"\nDone\n"` followed by
`"\nâ€¢ A\nâ€¢ B\n"`, byte for byte. -/
theorem claim_C1_amended :
    (∀ s : String, s ≠ "" →
      Jira.extractTextFromADF (Jira.ADFNode.mk "text" (some s) none) = s)
    ∧ (∀ cs, Jira.extractTextFromADF (Jira.ADFNode.mk "paragraph" none (some cs))
        = "\n" ++ Jira.extractADFChildren cs ++ "\n")
    ∧ (∀ cs, Jira.extractTextFromADF (Jira.ADFNode.mk "bulletList" none (some cs))
        = "\n" ++ Jira.extractADFChildren cs)
    ∧ (∀ cs, Jira.extractTextFromADF (Jira.ADFNode.mk "listItem" none (some cs))
        = "â€¢ " ++ Jira.extractADFChildren cs ++ "\n")
    ∧ (∀ n rest, Jira.extractADFChildren (n :: rest)
        = Jira.extractTextFromADF n ++ Jira.extractADFChildren rest)
    ∧ Jira.extractTextFromADF Jira.exampleDoc = "\nDone\n" ++ "\nâ€¢ A\nâ€¢ B\n" := by
  refine ⟨?_, ?_, ?_, ?_, ?_, by decide⟩
  · intro s h
    simp [Jira.extractTextFromADF, Jira.jsTruthy, h, String.append_empty,
      String.empty_append]
  · intro cs
    simp [Jira.extractTextFromADF, Jira.jsTruthy, String.append_empty,
      String.empty_append, String.append_assoc]
  · intro cs
    simp [Jira.extractTextFromADF, Jira.jsTruthy, String.append_empty,
      String.empty_append, String.append_assoc]
  · intro cs
    simp [Jira.extractTextFromADF, Jira.jsTruthy, String.append_empty,
      String.empty_append, String.append_assoc]
  · intro n rest
    rfl

/-- C1 witness: the amended text-run clause applied at the concrete
run `Done`. -/
theorem claim_C1_witness :
    Jira.extractTextFromADF (Jira.ADFNode.mk "text" (some "Done") none)
      = "Done" :=
  claim_C1_amended.1 "Done" (by decide)

/-- C5: confirmed.  Ticket-ID inference applies the single pattern
(optional slash-delimited word prefix, then a non-hyphen run, a
hyphen and a digit run as the two capture groups) and joins the two
captured groups with a hyphen; on the branch name
`feature/PROJ-123-add-button` the groups are `PROJ` and `123` and the
inferred identifier is `PROJ-123`; on `hotfix` there is no match and
no identifier. -/
theorem claim_C5 :
    PageTsx.execTicketRegex "feature/PROJ-123-add-button".toList
      = some ("PROJ".toList, "123".toList)
    ∧ PageTsx.inferTicketId "feature/PROJ-123-add-button".toList
      = some "PROJ-123".toList
    ∧ PageTsx.inferTicketId "hotfix".toList = none := by
  decide

/-- C6: confirmed.  The user prompt is exactly the fixed head (which
opens the first fenced plaintext block), then the ticket description
verbatim, then the fixed middle (which closes the first fenced block
and opens the second), then the diff verbatim, then the fixed tail
(which closes the second fenced block); in particular both inputs
occur unmodified as contiguous substrings of the prompt. -/
theorem claim_C6 (ticketDescription gitDiff : String) :
    Llm.userPrompt ticketDescription gitDiff
      = Llm.userPromptHead ++ (ticketDescription
        ++ (Llm.userPromptBetween ++ (gitDiff ++ Llm.userPromptTail)))
    ∧ (∃ a b, Llm.userPrompt ticketDescription gitDiff
        = a ++ (ticketDescription ++ b))
    ∧ (∃ a b, Llm.userPrompt ticketDescription gitDiff
        = a ++ (gitDiff ++ b)) := by
  refine ⟨?_, ?_, ?_⟩
  · simp [Llm.userPrompt, Llm.userPromptHead, Llm.userPromptBetween,
      Llm.userPromptTail, String.append_assoc]
  · exact ⟨Llm.userPromptHead,
      Llm.userPromptBetween ++ (gitDiff ++ Llm.userPromptTail),
      by simp [Llm.userPrompt, Llm.userPromptHead, Llm.userPromptBetween,
        Llm.userPromptTail, String.append_assoc]⟩
  · exact ⟨Llm.userPromptHead ++ (ticketDescription ++ Llm.userPromptBetween),
      Llm.userPromptTail,
      by simp [Llm.userPrompt, Llm.userPromptHead, Llm.userPromptBetween,
        Llm.userPromptTail, String.append_assoc]⟩

/-- C7: confirmed.  The Matching Delegate's `validateDiffAgainstTicket`
is a total string-valued function of the model oracle: when the model
call yields a completion it returns that raw text, and when the model
call throws it returns the thrown message prefixed with
`Error validating diff: ` instead of propagating the exception. -/
theorem claim_C7 (generate : String → String → Except String String)
    (ticketDescription gitDiff : String) :
    (∀ text,
      generate Llm.systemPrompt (Llm.userPrompt ticketDescription gitDiff)
        = Except.ok text →
      Llm.validateDiffAgainstTicket generate ticketDescription gitDiff = text)
    ∧ (∀ e,
      generate Llm.systemPrompt (Llm.userPrompt ticketDescription gitDiff)
        = Except.error e →
      Llm.validateDiffAgainstTicket generate ticketDescription gitDiff
        = "Error validating diff: " ++ e) := by
  constructor <;> intro x h <;> simp [Llm.validateDiffAgainstTicket, h]

/-- C7 witness: a model oracle that throws `boom` yields the rendered
error string. -/
theorem claim_C7_witness :
    Llm.validateDiffAgainstTicket (fun _ _ => Except.error "boom") "t" "d"
      = "Error validating diff: " ++ "boom" :=
  (claim_C7 (fun _ _ => Except.error "boom") "t" "d").2 "boom" rfl

/-- C3: confirmed.  For a project path that does not exist, each of
the five VCS operations returns its null/empty sentinel (`[]` for the
branch list, null for the others), executes no external command (the
command log is empty) and throws nothing (each is a total function
into its sentinel-carrying result type). -/
theorem claim_C3 (env : GitRoute.GitEnv) (projectPath : JSStr)
    (h : env.pathExists projectPath = false) :
    GitRoute.getBranches env projectPath = ([], [])
    ∧ GitRoute.getCurrentBranch env projectPath = (none, [])
    ∧ GitRoute.getDefaultBranch env projectPath = (none, [])
    ∧ (∀ fromBranch toBranch excludePatterns,
        GitRoute.getDiff env projectPath fromBranch toBranch excludePatterns
          = (none, []))
    ∧ GitRoute.getProjectName env projectPath = (none, []) := by
  refine ⟨?_, ?_, ?_, fun _ _ _ => ?_, ?_⟩ <;>
    simp [GitRoute.getBranches, GitRoute.getCurrentBranch,
      GitRoute.getDefaultBranch, GitRoute.getDiff,
      GitRoute.getProjectName, h]

/-- C3 witness: an environment where no path exists and every command
would fail loudly still yields the null sentinel and an empty command
log for default-branch selection. -/
theorem claim_C3_witness :
    GitRoute.getDefaultBranch
        (GitRoute.GitEnv.mk (fun _ => false) (fun _ _ => Except.error "down"))
        "/missing".toList
      = (none, []) :=
  (claim_C3
    (GitRoute.GitEnv.mk (fun _ => false) (fun _ _ => Except.error "down"))
    "/missing".toList rfl).2.2.1

/-- C4: confirmed.  When any of the three tracker configuration
variables is absent from the environment, the client constructor
yields null and the route's ticket fetch raises the configuration
message with an empty request log — no network request is made. -/
theorem claim_C4 (env : String → Option String)
    (fetchOracle : String → Except String Jira.FetchResponse)
    (ticketId : String)
    (h : env "JIRA_DOMAIN" = none ∨ env "JIRA_EMAIL" = none
      ∨ env "JIRA_API_TOKEN" = none) :
    Jira.jiraClientFrom env = none
    ∧ Jira.routeGetTicket env fetchOracle ticketId
        = (Except.error Jira.jiraConfigErrorMsg, []) := by
  have hclient : Jira.jiraClientFrom env = none := by
    rcases h with h | h | h <;> simp [Jira.jiraClientFrom, Jira.jsTruthy, h]
  exact ⟨hclient, by simp [Jira.routeGetTicket, hclient]⟩

/-- C4 witness: with an empty environment the route refuses with the
configuration error and requests no URL. -/
theorem claim_C4_witness :
    Jira.routeGetTicket (fun _ => none) (fun _ => Except.error "net") "PROJ-1"
      = (Except.error Jira.jiraConfigErrorMsg, []) :=
  (claim_C4 (fun _ => none) (fun _ => Except.error "net") "PROJ-1"
    (Or.inl rfl)).2

/-- C8: confirmed.  A successful fetch whose response carries a parent
link yields a ticket with exactly one parent entry in which only the
identifier is populated (title, description and markdown description
are all empty and the entry itself has no parents field); without a
parent link the parents field is absent; and in both cases exactly one
URL — the ticket's own — is ever requested, so parent content is never
fetched. -/
theorem claim_C8 (cfg : Jira.JiraConfig)
    (fetchOracle : String → Except String Jira.FetchResponse)
    (ticketId : String) (resp : Jira.FetchResponse) (formattedDesc : String)
    (hfetch : fetchOracle (Jira.issueUrl cfg ticketId) = Except.ok resp)
    (hok : resp.ok = true)
    (hdesc : Jira.formatDescription resp.description
      = Except.ok formattedDesc) :
    (Jira.clientGetTicket cfg fetchOracle ticketId).2
      = [Jira.issueUrl cfg ticketId]
    ∧ (∀ key, resp.parent = some key →
        (Jira.clientGetTicket cfg fetchOracle ticketId).1
          = some (Jira.JiraTicket.mk ticketId formattedDesc formattedDesc
              resp.summary (some [Jira.JiraTicket.mk key "" "" "" none])))
    ∧ (resp.parent = none →
        (Jira.clientGetTicket cfg fetchOracle ticketId).1
          = some (Jira.JiraTicket.mk ticketId formattedDesc formattedDesc
              resp.summary none)) := by
  refine ⟨?_, ?_, ?_⟩
  · simp [Jira.clientGetTicket]
  · intro key hk
    simp [Jira.clientGetTicket, hfetch, hok, hdesc, hk]
  · intro hk
    simp [Jira.clientGetTicket, hfetch, hok, hdesc, hk]

/-- C8 witness: a concrete ok response with parent key `PAR-9` yields
the single empty-placeholder parent entry. -/
theorem claim_C8_witness :
    (Jira.clientGetTicket (Jira.JiraConfig.mk "example.com" "e" "t")
        (fun _ => Except.ok (Jira.FetchResponse.mk true "OK" "Title"
          (Jira.JSValue.str "desc") (some "PAR-9"))) "PROJ-1").1
      = some (Jira.JiraTicket.mk "PROJ-1" "desc" "desc" "Title"
          (some [Jira.JiraTicket.mk "PAR-9" "" "" "" none])) :=
  (claim_C8 (Jira.JiraConfig.mk "example.com" "e" "t")
    (fun _ => Except.ok (Jira.FetchResponse.mk true "OK" "Title"
      (Jira.JSValue.str "desc") (some "PAR-9")))
    "PROJ-1"
    (Jira.FetchResponse.mk true "OK" "Title"
      (Jira.JSValue.str "desc") (some "PAR-9"))
    "desc" rfl rfl rfl).2.1 "PAR-9" rfl

/-- C9: confirmed.  An HTTP-ok tracker response whose description is
null makes `JiraClient.getTicket` return null — the existing ticket is
reported as not found — because `typeof null` is `object`, so null
reaches the rich-text walker, whose property access throws and is
caught by the surrounding handler; the `String(description || '')`
fallback is reached only for non-object values, giving the empty
string for undefined and the string itself for a string. -/
theorem claim_C9 (cfg : Jira.JiraConfig)
    (fetchOracle : String → Except String Jira.FetchResponse)
    (ticketId : String) (resp : Jira.FetchResponse)
    (hfetch : fetchOracle (Jira.issueUrl cfg ticketId) = Except.ok resp)
    (hok : resp.ok = true)
    (hnull : resp.description = Jira.JSValue.jsNull) :
    Jira.typeofIsObject resp.description = true
    ∧ (∃ e, Jira.formatDescription resp.description = Except.error e)
    ∧ (Jira.clientGetTicket cfg fetchOracle ticketId).1 = none
    ∧ Jira.formatDescription Jira.JSValue.jsUndefined = Except.ok ""
    ∧ (∀ s, Jira.formatDescription (Jira.JSValue.str s) = Except.ok s) := by
  refine ⟨by simp [hnull, Jira.typeofIsObject],
    ⟨"TypeError: Cannot read properties of null",
      by simp [hnull, Jira.formatDescription]⟩, ?_, rfl, fun s => rfl⟩
  simp [Jira.clientGetTicket, hfetch, hok, hnull, Jira.formatDescription]

/-- C9 witness: a concrete ok response with null description yields a
null ticket. -/
theorem claim_C9_witness :
    (Jira.clientGetTicket (Jira.JiraConfig.mk "example.com" "e" "t")
        (fun _ => Except.ok (Jira.FetchResponse.mk true "OK" "Title"
          Jira.JSValue.jsNull none)) "PROJ-2").1
      = none :=
  (claim_C9 (Jira.JiraConfig.mk "example.com" "e" "t")
    (fun _ => Except.ok (Jira.FetchResponse.mk true "OK" "Title"
      Jira.JSValue.jsNull none))
    "PROJ-2"
    (Jira.FetchResponse.mk true "OK" "Title" Jira.JSValue.jsNull none)
    rfl rfl rfl).2.2.1

/-- The head surviving a `dropWhile` fails the predicate. -/
theorem dropWhileHeadFalse (p : Char → Bool) :
    ∀ (l : List Char) (c : Char) (r : List Char),
      l.dropWhile p = c :: r → p c = false := by
  intro l
  induction l with
  | nil => intro c r h; simp at h
  | cons a t ih =>
    intro c r h
    rw [List.dropWhile_cons] at h
    by_cases hp : p a
    · exact ih c r (by simpa [hp] using h)
    · have hac : a = c := by
        simp [hp] at h
        exact h.1
      rw [← hac]
      simpa using hp

/-- The trimmed string is an initial segment of the string with its
leading whitespace dropped. -/
theorem jsTrimDecomp (l : JSStr) :
    l.dropWhile isWs
      = jsTrim l ++ ((l.dropWhile isWs).reverse.takeWhile isWs).reverse := by
  unfold jsTrim
  have h := congrArg List.reverse
    (List.takeWhile_append_dropWhile isWs (l.dropWhile isWs).reverse)
  rw [List.reverse_append, List.reverse_reverse] at h
  exact h.symm

/-- A non-empty trimmed string starts with a non-whitespace character. -/
theorem jsTrimHeadNotWs (l : JSStr) (c : Char) (r : JSStr)
    (h : jsTrim l = c :: r) : isWs c = false := by
  have hd := jsTrimDecomp l
  rw [h] at hd
  exact dropWhileHeadFalse isWs l c _ (by simpa using hd)

/-- A non-empty trimmed string ends with a non-whitespace character. -/
theorem jsTrimLastNotWs (l : JSStr) (c : Char)
    (h : (jsTrim l).getLast? = some c) : isWs c = false := by
  unfold jsTrim at h
  rw [List.getLast?_reverse] at h
  cases hd : (l.dropWhile isWs).reverse.dropWhile isWs with
  | nil => rw [hd] at h; simp at h
  | cons x xs =>
    rw [hd] at h
    simp at h
    exact dropWhileHeadFalse isWs ((l.dropWhile isWs).reverse) c xs
      (by rw [← h]; exact hd)

/-- When a priority name is found in the branch list, default-branch
selection returns it. -/
theorem defaultBranchOfFindSome (env : GitRoute.GitEnv) (p b : JSStr)
    (hex : env.pathExists p = true)
    (hfind : GitRoute.commonDefaultBranches.find?
        (fun x => (GitRoute.getBranches env p).1.contains x) = some b) :
    (GitRoute.getDefaultBranch env p).1 = some b := by
  simp only [GitRoute.getDefaultBranch, hex, Bool.not_true, Bool.false_eq_true,
    if_false]
  rw [hfind]

/-- When no priority name is found and the remote advertises a HEAD
branch, default-branch selection returns it trimmed. -/
theorem defaultBranchOfRemoteHead (env : GitRoute.GitEnv)
    (p out hb : JSStr) (hex : env.pathExists p = true)
    (hfind : GitRoute.commonDefaultBranches.find?
        (fun x => (GitRoute.getBranches env p).1.contains x) = none)
    (hexec : env.exec p GitRoute.gitRemoteShowCmd = Except.ok out)
    (hhead : GitRoute.findHeadBranch out = some hb) :
    (GitRoute.getDefaultBranch env p).1 = some (jsTrim hb) := by
  simp only [GitRoute.getDefaultBranch, hex, Bool.not_true, Bool.false_eq_true,
    if_false]
  rw [hfind]
  simp [hexec, hhead]

/-- When no priority name is found and the remote query succeeds but
advertises no HEAD branch, selection falls back to the first branch. -/
theorem defaultBranchOfRemoteNoHead (env : GitRoute.GitEnv)
    (p out : JSStr) (hex : env.pathExists p = true)
    (hfind : GitRoute.commonDefaultBranches.find?
        (fun x => (GitRoute.getBranches env p).1.contains x) = none)
    (hexec : env.exec p GitRoute.gitRemoteShowCmd = Except.ok out)
    (hhead : GitRoute.findHeadBranch out = none) :
    (GitRoute.getDefaultBranch env p).1
      = (GitRoute.getBranches env p).1.head? := by
  simp only [GitRoute.getDefaultBranch, hex, Bool.not_true, Bool.false_eq_true,
    if_false]
  rw [hfind]
  simp [hexec, hhead]

/-- When no priority name is found and the remote query throws,
selection falls back to the first branch. -/
theorem defaultBranchOfRemoteErr (env : GitRoute.GitEnv)
    (p : JSStr) (msg : String) (hex : env.pathExists p = true)
    (hfind : GitRoute.commonDefaultBranches.find?
        (fun x => (GitRoute.getBranches env p).1.contains x) = none)
    (hexec : env.exec p GitRoute.gitRemoteShowCmd = Except.error msg) :
    (GitRoute.getDefaultBranch env p).1
      = (GitRoute.getBranches env p).1.head? := by
  simp only [GitRoute.getDefaultBranch, hex, Bool.not_true, Bool.false_eq_true,
    if_false]
  rw [hfind]
  simp [hexec]

/-- C2: confirmed.  For an existing project path, default-branch
selection returns the first name of the fixed priority list
`develop`, `main`, `master` occurring in the branch list, regardless
of the branch list's own order; when none of the three occurs it
returns the remote's advertised HEAD branch (the trimmed capture of
the `HEAD branch:` line); when the remote query throws or advertises
no HEAD branch it returns the first branch of the list; and when in
that case the list is empty it returns null. -/
theorem claim_C2 (env : GitRoute.GitEnv) (projectPath : JSStr)
    (hex : env.pathExists projectPath = true) :
    ("develop".toList ∈ (GitRoute.getBranches env projectPath).1 →
      (GitRoute.getDefaultBranch env projectPath).1 = some "develop".toList)
    ∧ ("develop".toList ∉ (GitRoute.getBranches env projectPath).1 →
        "main".toList ∈ (GitRoute.getBranches env projectPath).1 →
      (GitRoute.getDefaultBranch env projectPath).1 = some "main".toList)
    ∧ ("develop".toList ∉ (GitRoute.getBranches env projectPath).1 →
        "main".toList ∉ (GitRoute.getBranches env projectPath).1 →
        "master".toList ∈ (GitRoute.getBranches env projectPath).1 →
      (GitRoute.getDefaultBranch env projectPath).1 = some "master".toList)
    ∧ ("develop".toList ∉ (GitRoute.getBranches env projectPath).1 →
        "main".toList ∉ (GitRoute.getBranches env projectPath).1 →
        "master".toList ∉ (GitRoute.getBranches env projectPath).1 →
        (∀ out hb,
          env.exec projectPath GitRoute.gitRemoteShowCmd = Except.ok out →
          GitRoute.findHeadBranch out = some hb →
          (GitRoute.getDefaultBranch env projectPath).1 = some (jsTrim hb))
        ∧ (∀ out,
          env.exec projectPath GitRoute.gitRemoteShowCmd = Except.ok out →
          GitRoute.findHeadBranch out = none →
          (GitRoute.getDefaultBranch env projectPath).1
            = (GitRoute.getBranches env projectPath).1.head?)
        ∧ (∀ msg,
          env.exec projectPath GitRoute.gitRemoteShowCmd = Except.error msg →
          (GitRoute.getDefaultBranch env projectPath).1
            = (GitRoute.getBranches env projectPath).1.head?)
        ∧ ((GitRoute.getBranches env projectPath).1 = [] →
          ∀ msg,
          env.exec projectPath GitRoute.gitRemoteShowCmd = Except.error msg →
          (GitRoute.getDefaultBranch env projectPath).1 = none)) := by
  refine ⟨?_, ?_, ?_, ?_⟩
  · intro hd
    apply defaultBranchOfFindSome env projectPath _ hex
    simp at hd
    simp [GitRoute.commonDefaultBranches, List.find?_cons, hd]
  · intro hnd hm
    apply defaultBranchOfFindSome env projectPath _ hex
    simp at hnd hm
    simp [GitRoute.commonDefaultBranches, List.find?_cons, hnd, hm]
  · intro hnd hnm hma
    apply defaultBranchOfFindSome env projectPath _ hex
    simp at hnd hnm hma
    simp [GitRoute.commonDefaultBranches, List.find?_cons, hnd, hnm, hma]
  · intro hnd hnm hnma
    have hfind : GitRoute.commonDefaultBranches.find?
        (fun x => (GitRoute.getBranches env projectPath).1.contains x)
          = none := by
      simp at hnd hnm hnma
      simp [GitRoute.commonDefaultBranches, List.find?_cons, hnd, hnm, hnma]
    refine ⟨?_, ?_, ?_, ?_⟩
    · intro out hb hexec hhead
      exact defaultBranchOfRemoteHead env projectPath out hb hex hfind
        hexec hhead
    · intro out hexec hhead
      exact defaultBranchOfRemoteNoHead env projectPath out hex hfind
        hexec hhead
    · intro msg hexec
      exact defaultBranchOfRemoteErr env projectPath msg hex hfind hexec
    · intro hempty msg hexec
      rw [defaultBranchOfRemoteErr env projectPath msg hex hfind hexec,
        hempty]
      rfl

/-- C2 witness: a repository listing `main`, `feature/x` and `develop`
(in that order, with `feature/x` checked out) selects `develop`. -/
theorem claim_C2_witness :
    (GitRoute.getDefaultBranch
        (GitRoute.GitEnv.mk (fun _ => true)
          (fun _ cmd =>
            if cmd = GitRoute.gitBranchCmd
            then Except.ok "  main\n* feature/x\n  develop\n".toList
            else Except.error "no remote"))
        "/repo".toList).1
      = some "develop".toList :=
  (claim_C2
    (GitRoute.GitEnv.mk (fun _ => true)
      (fun _ cmd =>
        if cmd = GitRoute.gitBranchCmd
        then Except.ok "  main\n* feature/x\n  develop\n".toList
        else Except.error "no remote"))
    "/repo".toList rfl).1 (by decide)

/-- A string beginning with the marker `"* "` decomposes as the two
marker characters followed by a remainder. -/
theorem startsStarShape (t : JSStr) (h : startsStar t = true) :
    ∃ rest, t = '*' :: ' ' :: rest := by
  cases t with
  | nil => simp [startsStar] at h
  | cons a t1 =>
    cases t1 with
    | nil => simp [startsStar] at h
    | cons b r =>
      simp [startsStar] at h
      exact ⟨r, by rw [h.1, h.2]⟩

/-- Every element of the branch list arises as some line of the
branch-listing output, trimmed (non-trivially) and with the marker
stripped. -/
theorem memGetBranches (env : GitRoute.GitEnv) (p e : JSStr)
    (he : e ∈ (GitRoute.getBranches env p).1) :
    ∃ output line,
      env.exec p GitRoute.gitBranchCmd = Except.ok output
      ∧ line ∈ splitLines output
      ∧ jsTrim line ≠ []
      ∧ e = stripStarMarker (jsTrim line) := by
  by_cases hp : env.pathExists p = true
  · rcases hexec : env.exec p GitRoute.gitBranchCmd with msg | output
    · simp [GitRoute.getBranches, hp, hexec] at he
    · simp only [GitRoute.getBranches, hp, Bool.not_true, Bool.false_eq_true,
        if_false, hexec] at he
      rcases List.mem_map.mp he with ⟨t, ht, rfl⟩
      rcases List.mem_filter.mp ht with ⟨ht2, htne⟩
      rcases List.mem_map.mp ht2 with ⟨line, hline, rfl⟩
      refine ⟨output, line, rfl, hline, ?_, rfl⟩
      simpa using htne
  · simp [GitRoute.getBranches, hp] at he

/-- C10: refuted as stated.  With branch-listing output whose lines,
after trimming, still start with a second marker or carry whitespace
after the marker (`"* * odd"`, `"*  spaced"`), the returned list
contains a string that begins with the marker `"* "` and a string with
leading whitespace. -/
theorem claim_C10_counterexample :
    (GitRoute.getBranches
        (GitRoute.GitEnv.mk (fun _ => true)
          (fun _ _ => Except.ok "* * odd\n*  spaced\n".toList))
        "/repo".toList).1
      = ["* odd".toList, " spaced".toList]
    ∧ startsStar "* odd".toList = true
    ∧ jsTrim " spaced".toList ≠ " spaced".toList := by
  decide

/-- C10 (amended): every string in the list returned by `getBranches`
is non-empty and carries no trailing whitespace; and provided every
line of the underlying command output, once trimmed, does not continue
after a leading `"* "` marker with whitespace or another marker (as in
real branch-listing output), every returned string also carries no
leading whitespace and does not begin with `"* "`. -/
theorem claim_C10_amended (env : GitRoute.GitEnv) (projectPath : JSStr) :
    (∀ e ∈ (GitRoute.getBranches env projectPath).1,
      e ≠ [] ∧ ∀ c, e.getLast? = some c → isWs c = false)
    ∧ (∀ output,
        env.exec projectPath GitRoute.gitBranchCmd = Except.ok output →
        (∀ line ∈ splitLines output, afterStarOk (jsTrim line) = true) →
        ∀ e ∈ (GitRoute.getBranches env projectPath).1,
          (∀ c r, e = c :: r → isWs c = false) ∧ startsStar e = false) := by
  constructor
  · intro e he
    obtain ⟨output, line, hexec, hline, hne, rfl⟩ :=
      memGetBranches env projectPath e he
    by_cases hstar : startsStar (jsTrim line) = true
    · obtain ⟨rest, hshape⟩ := startsStarShape _ hstar
      have hdrop : stripStarMarker (jsTrim line) = rest := by
        simp [stripStarMarker, startsStar, hshape]
      rw [hdrop]
      constructor
      · intro hrest
        rw [hrest] at hshape
        have hlast : (jsTrim line).getLast? = some ' ' := by
          rw [hshape]; rfl
        have hws := jsTrimLastNotWs line ' ' hlast
        simp [isWs] at hws
      · intro c hc
        cases rest with
        | nil => simp at hc
        | cons x xs =>
          have hlast : (jsTrim line).getLast? = some c := by
            rw [hshape, List.getLast?_cons_cons, List.getLast?_cons_cons]
            exact hc
          exact jsTrimLastNotWs line c hlast
    · have hstar2 : startsStar (jsTrim line) = false := by
        simpa using hstar
      have hid : stripStarMarker (jsTrim line) = jsTrim line := by
        simp [stripStarMarker, hstar2]
      rw [hid]
      refine ⟨hne, fun c hc => jsTrimLastNotWs line c hc⟩
  · intro output hexec hcond e he
    obtain ⟨output2, line, hexec2, hline, hne, rfl⟩ :=
      memGetBranches env projectPath e he
    have hout : output2 = output := by
      rw [hexec] at hexec2
      exact (Except.ok.inj hexec2).symm
    subst hout
    have hafter := hcond line hline
    by_cases hstar : startsStar (jsTrim line) = true
    · obtain ⟨rest, hshape⟩ := startsStarShape _ hstar
      have hdrop : stripStarMarker (jsTrim line) = rest := by
        simp [stripStarMarker, startsStar, hshape]
      rw [hdrop]
      rw [hshape] at hafter
      simp [afterStarOk, startsStar] at hafter
      constructor
      · intro c r hcr
        have hm := hafter.2
        rw [hcr] at hm
        simpa using hm
      · simpa [startsStar] using hafter.1
    · have hstar2 : startsStar (jsTrim line) = false := by
        simpa using hstar
      have hid : stripStarMarker (jsTrim line) = jsTrim line := by
        simp [stripStarMarker, hstar2]
      rw [hid]
      exact ⟨fun c r hcr => jsTrimHeadNotWs line c r hcr, hstar2⟩

/-- C10 witness: on well-formed output listing `main` (checked out)
and `develop`, the element `main` is non-empty, trim-clean on both
sides, and carries no marker. -/
theorem claim_C10_witness :
    "main".toList ∈ (GitRoute.getBranches
        (GitRoute.GitEnv.mk (fun _ => true)
          (fun _ _ => Except.ok "* main\n  develop\n".toList))
        "/r".toList).1
    ∧ "main".toList ≠ []
    ∧ isWs 'n' = false
    ∧ startsStar "main".toList = false := by
  refine ⟨by decide, ?_, ?_, ?_⟩
  · exact ((claim_C10_amended
      (GitRoute.GitEnv.mk (fun _ => true)
        (fun _ _ => Except.ok "* main\n  develop\n".toList))
      "/r".toList).1 "main".toList (by decide)).1
  · exact ((claim_C10_amended
      (GitRoute.GitEnv.mk (fun _ => true)
        (fun _ _ => Except.ok "* main\n  develop\n".toList))
      "/r".toList).1 "main".toList (by decide)).2 'n' (by decide)
  · exact (((claim_C10_amended
      (GitRoute.GitEnv.mk (fun _ => true)
        (fun _ _ => Except.ok "* main\n  develop\n".toList))
      "/r".toList).2 "* main\n  develop\n".toList rfl (by decide))
      "main".toList (by decide)).2
